import Mathlib

/-!
Verification of the combat and progression simulation of a survival game
(enemy difficulty scaling, weapon stat recomputation, XP leveling, drop
spawning, pierce semantics, contact damage gating, garlic aura ticks).

All Python floats are modelled as exact rationals (ℚ); Python `int(x)`
(truncation toward zero) is modelled by `pyInt`; Python `//` on
non-negative integers is `Nat` division.
-/

/-- Python `int(x)` conversion: truncation toward zero. -/
def pyInt (q : ℚ) : ℤ :=
  if q < 0 then -⌊-q⌋ else ⌊q⌋

/-! ## Enemy difficulty scaling (entities/enemy.py, systems/spawner.py) -/

/-- Per-type configuration rows from `ENEMY_DATA` in settings.py
(only the combat-relevant columns). -/
structure EnemyConfig where
  hp : ℚ
  damage : ℚ
  speed : ℚ
  xp_value : ℕ

/-- `ENEMY_DATA['chaser']`. -/
def chaser_data : EnemyConfig := { hp := 10, damage := 10, speed := 80, xp_value := 1 }

/-- `ENEMY_DATA['tank']`. -/
def tank_data : EnemyConfig := { hp := 50, damage := 20, speed := 40, xp_value := 5 }

/-- `SPAWNER_SETTINGS['difficulty_hp_scale']` (0.05 per minute). -/
def difficulty_hp_scale : ℚ := 1 / 20

/-- `EnemySpawner._get_difficulty_multiplier`: `1 + difficulty_hp_scale * minutes`
where `minutes = game_time / 60`. -/
def difficulty_multiplier (game_time : ℚ) : ℚ :=
  1 + difficulty_hp_scale * (game_time / 60)

/-- Combat-relevant state set up by `Enemy.__init__`. -/
structure EnemyCombat where
  max_hp : ℤ
  hp : ℤ
  damage : ℤ
  damage_cooldown : ℚ

/-- `Enemy.__init__` stat computation:
`max_hp = int(data['hp'] * difficulty_mult)` and
`damage = int(data['damage'] * (1 + (difficulty_mult - 1) * 0.5))`. -/
def mk_enemy (cfg : EnemyConfig) (difficulty_mult : ℚ) : EnemyCombat :=
  { max_hp := pyInt (cfg.hp * difficulty_mult)
    hp := pyInt (cfg.hp * difficulty_mult)
    damage := pyInt (cfg.damage * (1 + (difficulty_mult - 1) * (1 / 2)))
    damage_cooldown := 0 }

/-! ## Player progression (entities/player.py) -/

/-- `XP_SETTINGS['base_xp_to_level']`. -/
def base_xp_to_level : ℕ := 100

/-- `XP_SETTINGS['xp_per_level_increase']`. -/
def xp_per_level_increase : ℕ := 50

/-- Progression-relevant slice of the `Player` state. -/
structure PlayerProg where
  level : ℕ
  xp : ℤ
  xp_to_next_level : ℕ
  hp : ℚ
  max_hp : ℚ

/-- `Player.__init__` progression fields: level 1, no XP, and the first
threshold is `base_xp_to_level // 2`. -/
def init_player : PlayerProg :=
  { level := 1
    xp := 0
    xp_to_next_level := base_xp_to_level / 2
    hp := 100
    max_hp := 100 }

/-- `Player.heal`: `hp = min(hp + amount, max_hp)`. -/
def heal (p : PlayerProg) (amount : ℚ) : PlayerProg :=
  { p with hp := min (p.hp + amount) p.max_hp }

/-- `Player.level_up`: subtract the threshold, increment the level,
recompute the threshold as `(base + (level-1)*increase) // 2` with the new
level, then heal 10% of max HP. -/
def level_up (p : PlayerProg) : PlayerProg :=
  let p1 : PlayerProg :=
    { p with
      xp := p.xp - p.xp_to_next_level
      level := p.level + 1
      xp_to_next_level :=
        (base_xp_to_level + (p.level + 1 - 1) * xp_per_level_increase) / 2 }
  heal p1 (p1.max_hp * (1 / 10))

/-- `Player.gain_xp`: add the amount, then level up (once) if the total
reaches the threshold; returns the new state and whether a level-up fired. -/
def gain_xp (p : PlayerProg) (amount : ℤ) : PlayerProg × Bool :=
  let p1 : PlayerProg := { p with xp := p.xp + amount }
  if p1.xp ≥ (p1.xp_to_next_level : ℤ) then (level_up p1, true) else (p1, false)

/-- A sequence of `gain_xp` calls starting from a given state. -/
def run_gains (p : PlayerProg) (l : List ℤ) : PlayerProg :=
  l.foldl (fun q a => (gain_xp q a).1) p

/-- Threshold/level relation maintained by `level_up`. -/
def threshold_matches (p : PlayerProg) : Prop :=
  p.xp_to_next_level = (base_xp_to_level + (p.level - 1) * xp_per_level_increase) / 2

/-! ## Weapon stats (weapons/weapon_base.py) -/

/-- Per-level deltas (`WEAPON_DATA[...]['scaling']`). -/
structure WeaponScaling where
  damage : ℚ
  cooldown : ℚ
  area : ℚ
  amount : ℕ

/-- Per-weapon configuration rows from `WEAPON_DATA` in settings.py. -/
structure WeaponConfig where
  base_damage : ℚ
  base_cooldown : ℚ
  base_area : ℚ
  base_amount : ℕ
  base_pierce : ℕ
  max_level : ℕ
  scaling : WeaponScaling

/-- `WEAPON_DATA['wand']`. -/
def wand_data : WeaponConfig :=
  { base_damage := 10, base_cooldown := 1, base_area := 1, base_amount := 1
    base_pierce := 1, max_level := 8
    scaling := { damage := 3, cooldown := -(2 / 25), area := 0, amount := 1 } }

/-- `WEAPON_DATA['whip']`. -/
def whip_data : WeaponConfig :=
  { base_damage := 20, base_cooldown := 3 / 2, base_area := 1, base_amount := 1
    base_pierce := 999, max_level := 8
    scaling := { damage := 5, cooldown := -(1 / 10), area := 1 / 10, amount := 0 } }

/-- Player stat modifiers that feed weapon formulas. -/
structure PlayerMods where
  might : ℚ
  cooldown_reduction : ℚ

/-- Mutable weapon stats touched by `Weapon._recalculate_stats`. -/
structure WeaponState where
  level : ℕ
  damage : ℚ
  cooldown : ℚ
  area : ℚ
  amount : ℕ
  size_multiplier : ℚ
  evolved : Bool

/-- `Weapon._recalculate_stats`, assignment for assignment: level scaling of
damage/cooldown/area/amount, the size multiplier, then the player modifiers
(might, cooldown reduction) applied last. -/
def recalculate_stats (cfg : WeaponConfig) (mods : PlayerMods) (w : WeaponState) : WeaponState :=
  let level_bonus : ℕ := w.level - 1
  let damage0 := cfg.base_damage + cfg.scaling.damage * level_bonus
  let cooldown0 := max (1 / 10) (cfg.base_cooldown + cfg.scaling.cooldown * level_bonus)
  let area := cfg.base_area + cfg.scaling.area * level_bonus
  let amount :=
    if cfg.scaling.amount > 0 then cfg.base_amount + level_bonus / 2 * cfg.scaling.amount
    else cfg.base_amount
  let size_multiplier :=
    if cfg.max_level > 1 then 1 + ((w.level : ℚ) - 1) / ((cfg.max_level : ℚ) - 1) * 2 else 1
  let damage := damage0 * mods.might
  let cooldown := cooldown0 * (1 - mods.cooldown_reduction)
  { w with damage := damage, cooldown := cooldown, area := area, amount := amount
           size_multiplier := size_multiplier }

/-- Closed-form damage from the spec: `(baseDamage + damagePerLevel*(L-1)) * might`. -/
def spec_damage (cfg : WeaponConfig) (mods : PlayerMods) (L : ℕ) : ℚ :=
  (cfg.base_damage + cfg.scaling.damage * ((L - 1 : ℕ) : ℚ)) * mods.might

/-- Closed-form cooldown from the spec:
`max(0.1, baseCooldown + cooldownDeltaPerLevel*(L-1)) * (1 - cooldownReduction)`. -/
def spec_cooldown (cfg : WeaponConfig) (mods : PlayerMods) (L : ℕ) : ℚ :=
  max (1 / 10) (cfg.base_cooldown + cfg.scaling.cooldown * ((L - 1 : ℕ) : ℚ)) *
    (1 - mods.cooldown_reduction)

/-- Closed-form area from the spec: `baseArea + areaPerLevel*(L-1)`. -/
def spec_area (cfg : WeaponConfig) (L : ℕ) : ℚ :=
  cfg.base_area + cfg.scaling.area * ((L - 1 : ℕ) : ℚ)

/-- Closed-form amount from the spec:
`baseAmount + floor((L-1)/2)*amountPerLevel` when `amountPerLevel > 0`,
otherwise `baseAmount`. -/
def spec_amount (cfg : WeaponConfig) (L : ℕ) : ℕ :=
  if cfg.scaling.amount > 0 then cfg.base_amount + (L - 1) / 2 * cfg.scaling.amount
  else cfg.base_amount

/-- Evolution configuration rows from `EVOLUTION_DATA` in settings.py. -/
structure EvolutionConfig where
  damage_mult : ℚ

/-- `Weapon.evolve`: with resolved evolution data it marks the weapon
evolved and multiplies the current damage by the evolution's damage
multiplier; with no data (`evolution_id` missing from `EVOLUTION_DATA`)
it fails and changes nothing. -/
def evolve (evo : Option EvolutionConfig) (w : WeaponState) : WeaponState × Bool :=
  match evo with
  | none => (w, false)
  | some e => ({ w with evolved := true, damage := w.damage * e.damage_mult }, true)

/-! ## Drops (entities/drops.py, main.py) -/

/-- `Enemy.get_drop_info`: last position and XP value captured at death. -/
structure DropInfo where
  pos : ℚ × ℚ
  xp_value : ℕ
deriving DecidableEq

/-- Gem tiers from `DROP_SETTINGS`. -/
inductive GemTier
  | small
  | medium
  | large
deriving DecidableEq

/-- A drop spawned into the drop group. -/
inductive SpawnedDrop
  | xp_gem (pos : ℚ × ℚ) (value : ℕ) (tier : GemTier)
  | health_pickup (pos : ℚ × ℚ)
  | chest (pos : ℚ × ℚ)
deriving DecidableEq

/-- Tier selection in `ExperienceGem.__init__`: large for `value ≥ 25`,
medium for `value ≥ 5`, else small. -/
def gem_tier (value : ℕ) : GemTier :=
  if value ≥ 25 then .large else if value ≥ 5 then .medium else .small

/-- `DropManager.spawn_xp_gem`. -/
def spawn_xp_gem (pos : ℚ × ℚ) (value : ℕ) : SpawnedDrop :=
  .xp_gem pos value (gem_tier value)

/-- `DROP_SETTINGS['health_pickup']['drop_chance']` (2%). -/
def health_drop_chance : ℚ := 1 / 50

/-- `DROP_SETTINGS['chest']['drop_chance']` (0.5%). -/
def chest_drop_chance : ℚ := 1 / 200

/-- `DropManager.spawn_enemy_drops`: always the XP gem, then a
health-pickup roll at 2% and a chest roll at 0.5%, each at a small random
offset from the gem.  `rng n` is the n-th random draw consumed on this call
(`random.random()` for the chance rolls, the `random.uniform` results for
the offsets), threaded in the order the Python code draws them. -/
def spawn_enemy_drops (rng : ℕ → ℚ) (d : DropInfo) : List SpawnedDrop :=
  let gem := spawn_xp_gem d.pos d.xp_value
  if rng 0 < health_drop_chance then
    let pickup := SpawnedDrop.health_pickup (d.pos.1 + rng 1, d.pos.2 + rng 2)
    if rng 3 < chest_drop_chance then
      [gem, pickup, SpawnedDrop.chest (d.pos.1 + rng 4, d.pos.2 + rng 5)]
    else [gem, pickup]
  else
    if rng 1 < chest_drop_chance then
      [gem, SpawnedDrop.chest (d.pos.1 + rng 2, d.pos.2 + rng 3)]
    else [gem]

/-- The enemy-death drop handling actually performed by `Game.update`: for
each dead enemy's drop info it calls `drop_manager.spawn_xp_gem(pos,
xp_value)` and nothing else (`spawn_enemy_drops` has no caller). -/
def game_update_process_deaths (deaths : List DropInfo) : List SpawnedDrop :=
  deaths.map fun d => spawn_xp_gem d.pos d.xp_value

/-- Number of health pickups in a spawned-drop list. -/
def count_health (l : List SpawnedDrop) : ℕ :=
  (l.filter fun d => match d with | .health_pickup _ => true | _ => false).length

/-- Number of chests in a spawned-drop list. -/
def count_chests (l : List SpawnedDrop) : ℕ :=
  (l.filter fun d => match d with | .chest _ => true | _ => false).length

/-! ## Upgrade options (weapons/controller.py) -/

/-- The five weapon ids of `WEAPON_DATA`, in insertion order. -/
inductive WeaponId
  | whip
  | wand
  | garlic
  | axe
  | knife
deriving DecidableEq

/-- The seven passive ids of `PASSIVE_DATA`, in insertion order. -/
inductive PassiveId
  | might_boost
  | max_hp_boost
  | regen_boost
  | pickup_boost
  | armor_boost
  | speed_boost
  | cooldown_boost
deriving DecidableEq

/-- Iteration order of `WEAPON_DATA`. -/
def weapon_data_ids : List WeaponId := [.whip, .wand, .garlic, .axe, .knife]

/-- Iteration order of `PASSIVE_DATA`. -/
def passive_data_ids : List PassiveId :=
  [.might_boost, .max_hp_boost, .regen_boost, .pickup_boost, .armor_boost,
   .speed_boost, .cooldown_boost]

/-- Every weapon's `max_level` is 8 in `WEAPON_DATA`. -/
def weapon_max_level (_ : WeaponId) : ℕ := 8

/-- Every passive's `max_level` is 5 in `PASSIVE_DATA`. -/
def passive_max_level (_ : PassiveId) : ℕ := 5

/-- `WEAPON_DATA[...]['evolution_passive']`. -/
def evolution_passive : WeaponId → PassiveId
  | .whip => .might_boost
  | .wand => .cooldown_boost
  | .garlic => .regen_boost
  | .axe => .max_hp_boost
  | .knife => .speed_boost

/-- `MAX_WEAPONS`. -/
def max_weapons : ℕ := 6

/-- `MAX_PASSIVES`. -/
def max_passives : ℕ := 6

/-- Weapon entry in the controller's inventory. -/
structure OwnedWeapon where
  level : ℕ
  evolved : Bool
deriving DecidableEq

/-- `WeaponController` inventories: insertion-ordered dicts of weapons and
passive levels. -/
structure Inventory where
  weapons : List (WeaponId × OwnedWeapon)
  passives : List (PassiveId × ℕ)

/-- `Weapon.can_evolve`: not yet evolved, at max level, evolution id set
(true for all five weapons) and the required passive owned. -/
def can_evolve_inv (passives : List (PassiveId × ℕ)) (wid : WeaponId)
    (w : OwnedWeapon) : Bool :=
  !w.evolved && decide (weapon_max_level wid ≤ w.level) &&
    passives.any fun q => q.1 = evolution_passive wid

/-- An entry of the `possible` pool built by
`WeaponController.get_upgrade_options` (the `('kind', id, is_new, level)`
tuples). -/
inductive UpgradeOption
  | weapon (id : WeaponId) (is_new : Bool) (level : ℕ)
  | passive (id : PassiveId) (is_new : Bool) (level : ℕ)
  | evolution (id : WeaponId)
deriving DecidableEq

/-- The candidate pool `possible` of `get_upgrade_options`, in build order:
level-ups of owned weapons below max, new weapons when a slot is free,
level-ups of owned passives below max, new passives when a slot is free,
and currently eligible evolutions. -/
def possible_upgrades (inv : Inventory) : List UpgradeOption :=
  (inv.weapons.filterMap fun q =>
    if q.2.level < weapon_max_level q.1 then some (.weapon q.1 false q.2.level) else none)
  ++ (if inv.weapons.length < max_weapons then
        weapon_data_ids.filterMap fun wid =>
          if inv.weapons.any fun q => q.1 = wid then none else some (.weapon wid true 0)
      else [])
  ++ (inv.passives.filterMap fun q =>
        if q.2 < passive_max_level q.1 then some (.passive q.1 false q.2) else none)
  ++ (if inv.passives.length < max_passives then
        passive_data_ids.filterMap fun pid =>
          if inv.passives.any fun q => q.1 = pid then none else some (.passive pid true 0)
      else [])
  ++ (inv.weapons.filterMap fun q =>
        if can_evolve_inv inv.passives q.1 q.2 then some (.evolution q.1) else none)

/-- Placeholder fed to `List.getD`; never returned for in-range indices. -/
def default_option : UpgradeOption := .weapon .whip true 0

/-- The tail of `WeaponController.get_upgrade_options` after the pool is
built: `random.shuffle(possible)` (modelled by the already-shuffled list
`perm`), `options = possible[:count]`, then
`while len(options) < count and possible: options.append(random.choice(possible))`
(the n-th `random.choice` index is `picks n`, reduced mod the pool size). -/
def get_upgrade_options (perm : List UpgradeOption) (count : ℕ)
    (picks : ℕ → ℕ) : List UpgradeOption :=
  let options := perm.take count
  options ++
    (if perm.isEmpty then []
     else (List.range (count - options.length)).map
       fun i => perm.getD (picks i % perm.length) default_option)

/-- An inventory with every weapon and passive slot filled and maxed out and
every weapon marked evolved: its candidate pool is empty. -/
def maxed_inventory : Inventory :=
  { weapons := weapon_data_ids.map fun wid => (wid, { level := 8, evolved := true })
    passives := [(.might_boost, 5), (.max_hp_boost, 5), (.regen_boost, 5),
                 (.pickup_boost, 5), (.armor_boost, 5), (.speed_boost, 5)] }

/-! ## Player-enemy contact damage (main.py, entities/player.py) -/

/-- Combat-relevant slice of the `Player` state for contact damage. -/
structure PlayerCombat where
  hp : ℚ
  max_hp : ℚ
  armor : ℚ
  is_invincible : Bool
  i_frames_timer : ℚ
  i_frames_duration : ℚ
  dead : Bool
  unlimited_health : Bool
  damage_taken : ℚ
deriving DecidableEq

/-- `Player.get_hit`: no effect while invincible or dead; with the
unlimited-health cheat only the i-frames open; otherwise armor reduces the
damage with a floor of 1, HP drops, i-frames open, and death is flagged
when HP reaches 0.  Returns the new state and whether the player died. -/
def get_hit (p : PlayerCombat) (damage : ℚ) : PlayerCombat × Bool :=
  if p.is_invincible || p.dead then (p, false)
  else if p.unlimited_health then
    ({ p with is_invincible := true, i_frames_timer := p.i_frames_duration }, false)
  else
    let actual := max 1 (damage - p.armor)
    let p1 := { p with
      hp := p.hp - actual
      damage_taken := p.damage_taken + actual
      is_invincible := true
      i_frames_timer := p.i_frames_duration }
    if p1.hp ≤ 0 then ({ p1 with hp := 0, dead := true }, true) else (p1, false)

/-- `Enemy.can_damage`: the per-enemy contact cooldown has elapsed. -/
def enemy_can_damage (e : EnemyCombat) : Bool :=
  decide (e.damage_cooldown ≤ 0)

/-- `Enemy.reset_damage_cooldown`: half a second between hits. -/
def reset_damage_cooldown (e : EnemyCombat) : EnemyCombat :=
  { e with damage_cooldown := 1 / 2 }

/-- The body of `Game._handle_player_enemy_collision` for one enemy: on
hitbox overlap, require the enemy's cooldown to be open and the player not
invincible, apply `get_hit`, and reset the enemy's cooldown only when the
hit did not kill the player (the handler returns early on death). -/
def handle_contact (p : PlayerCombat) (e : EnemyCombat) (overlap : Bool) :
    PlayerCombat × EnemyCombat :=
  if overlap && enemy_can_damage e && !p.is_invincible then
    let r := get_hit p e.damage
    if r.2 then (r.1, e)
    else (r.1, reset_damage_cooldown e)
  else (p, e)

/-- `Player.update_i_frames`: count the invincibility window down and close
it when the timer runs out. -/
def update_i_frames (p : PlayerCombat) (dt : ℚ) : PlayerCombat :=
  if p.is_invincible then
    let t := p.i_frames_timer - dt
    if t ≤ 0 then { p with is_invincible := false, i_frames_timer := 0 }
    else { p with i_frames_timer := t }
  else p

/-- The damage-cooldown countdown in `Enemy.update`. -/
def enemy_update_cooldown (e : EnemyCombat) (dt : ℚ) : EnemyCombat :=
  if e.damage_cooldown > 0 then { e with damage_cooldown := e.damage_cooldown - dt }
  else e

/-- The player of the two-contact scenario: full HP, no armor, 0.5 s
invincibility window. -/
def scenario_player : PlayerCombat :=
  { hp := 100, max_hp := 100, armor := 0, is_invincible := false
    i_frames_timer := 0, i_frames_duration := 1 / 2, dead := false
    unlimited_health := false, damage_taken := 0 }

/-- The enemy of the two-contact scenario: damage 10, open cooldown. -/
def scenario_enemy : EnemyCombat :=
  { max_hp := 10, hp := 10, damage := 10, damage_cooldown := 0 }

/-! ## Projectile pierce (weapons/projectiles.py, weapons/controller.py) -/

/-- State of a `Projectile` relevant to pierce and lifetime. -/
structure Projectile where
  hits_remaining : ℤ
  hit_enemies : List ℕ
  killed : Bool
  age : ℚ
  lifetime : ℚ
deriving DecidableEq

/-- `Projectile.__init__` with `pierce` and `lifetime`: full pierce budget,
no enemies hit yet, alive, age 0. -/
def mk_projectile (pierce : ℕ) (lifetime : ℚ) : Projectile :=
  { hits_remaining := pierce, hit_enemies := [], killed := false, age := 0
    lifetime := lifetime }

/-- `Projectile.hit_enemy`: refuse an enemy already in `hit_enemies`;
otherwise record it, decrement `hits_remaining`, and `kill()` the sprite
when the counter drops to 0 or below.  Returns whether damage applies. -/
def hit_enemy (p : Projectile) (eid : ℕ) : Projectile × Bool :=
  if eid ∈ p.hit_enemies then (p, false)
  else
    let p1 := { p with
      hit_enemies := eid :: p.hit_enemies
      hits_remaining := p.hits_remaining - 1 }
    if p1.hits_remaining ≤ 0 then ({ p1 with killed := true }, true)
    else (p1, true)

/-- One projectile's inner loop of
`WeaponController.handle_projectile_collisions`: iterate the enemy list
(given as id plus rect-overlap flag) and damage every overlapping enemy for
which `hit_enemy` returns true; the loop does not stop when the projectile
is killed mid-pass.  Returns the state and the damaged enemy ids in order. -/
def collision_pass : Projectile → List (ℕ × Bool) → Projectile × List ℕ
  | p, [] => (p, [])
  | p, e :: es =>
    if e.2 then
      let r := hit_enemy p e.1
      let rest := collision_pass r.1 es
      (rest.1, (if r.2 then [e.1] else []) ++ rest.2)
    else collision_pass p es

/-- The age/lifetime part of `Projectile.update`: age by `dt` and `kill()`
once `age >= lifetime`. -/
def update_proj (p : Projectile) (dt : ℚ) : Projectile :=
  let p1 := { p with age := p.age + dt }
  if p1.lifetime ≤ p1.age then { p1 with killed := true } else p1

/-- One simulation tick as seen by a projectile: the elapsed `dt` and the
enemy list (id, overlap) it is tested against. -/
structure Frame where
  dt : ℚ
  enemies : List (ℕ × Bool)

/-- A sequence of ticks: a killed projectile is out of the sprite groups,
so it is neither updated nor collision-tested in later frames; an alive one
is updated first (`Game.update` runs `projectile.update` before
`handle_projectile_collisions`) and collision-tested only if still alive. -/
def run_frames : Projectile → List Frame → Projectile × List ℕ
  | p, [] => (p, [])
  | p, f :: fs =>
    if p.killed then run_frames p fs
    else
      let p1 := update_proj p f.dt
      if p1.killed then run_frames p1 fs
      else
        let c := collision_pass p1 f.enemies
        let r := run_frames c.1 fs
        (r.1, c.2 ++ r.2)

/-- Well-formedness of reachable projectile states: killed exactly when the
pierce budget is exhausted or the lifetime has elapsed. -/
def proj_wf (p : Projectile) : Prop :=
  p.killed = (decide (p.hits_remaining ≤ 0) || decide (p.lifetime ≤ p.age))

/-! ## Garlic aura tick cooldowns (weapons/projectiles.py GarlicAura) -/

/-- Lookup in the `damage_timers` dict (`enemy id -> last tick time`). -/
def lookup_timer (m : List (ℕ × ℚ)) (e : ℕ) : Option ℚ :=
  (m.find? fun q => q.1 == e).map fun q => q.2

/-- Dict assignment `damage_timers[id] = now` (one entry per key). -/
def set_timer (m : List (ℕ × ℚ)) (e : ℕ) (t : ℚ) : List (ℕ × ℚ) :=
  (e, t) :: m.filter fun q => q.1 != e

/-- `GarlicAura` state: its tick rate (the weapon cooldown) and the
per-enemy damage-timer dict. -/
structure GarlicState where
  tick_rate : ℚ
  damage_timers : List (ℕ × ℚ)

/-- `GarlicAura.can_damage_enemy`: a first-seen enemy is damaged and its
timer starts; a known enemy is damaged only when at least `tick_rate`
elapsed since its own last tick, which then resets its timer. -/
def can_damage_enemy (s : GarlicState) (e : ℕ) (now : ℚ) : Bool × GarlicState :=
  match lookup_timer s.damage_timers e with
  | none => (true, { s with damage_timers := set_timer s.damage_timers e now })
  | some v =>
      if now - v ≥ s.tick_rate then
        (true, { s with damage_timers := set_timer s.damage_timers e now })
      else (false, s)

/-- The timer cleanup in `GarlicAura.update`: keep only entries idle for
less than `tick_rate * 2`. -/
def prune_timers (s : GarlicState) (now : ℚ) : GarlicState :=
  { s with damage_timers := s.damage_timers.filter fun q =>
      decide (now - q.2 < s.tick_rate * 2) }

/-- Timed events hitting the aura state: an in-range check of one enemy
(`GarlicWeapon.update` damage loop) or a cleanup pass (`GarlicAura.update`);
`t` is the wall-clock time `pygame.time.get_ticks() / 1000`. -/
inductive AuraEvent
  | check (e : ℕ) (t : ℚ)
  | prune (t : ℚ)

/-- The wall-clock time of an event. -/
def AuraEvent.time : AuraEvent → ℚ
  | .check _ t => t
  | .prune t => t

/-- One event applied to the aura state; returns the damage events (enemy
id, time) it causes. -/
def aura_step (s : GarlicState) (ev : AuraEvent) : GarlicState × List (ℕ × ℚ) :=
  match ev with
  | .check e t =>
      let r := can_damage_enemy s e t
      (r.2, if r.1 then [(e, t)] else [])
  | .prune t => (prune_timers s t, [])

/-- A timed event trace applied to the aura state, collecting all damage
events in order. -/
def aura_run : GarlicState → List AuraEvent → GarlicState × List (ℕ × ℚ)
  | s, [] => (s, [])
  | s, ev :: rest =>
      let r := aura_step s ev
      let r2 := aura_run r.1 rest
      (r2.1, r.2 ++ r2.2)

/-- The damage times of one enemy in a damage-event list. -/
def damages_for (e : ℕ) (l : List (ℕ × ℚ)) : List ℚ :=
  l.filterMap fun q => if q.1 = e then some q.2 else none

/-! ## Theorems -/

lemma threshold_matches_init : threshold_matches init_player := by
  simp [threshold_matches, init_player, base_xp_to_level, xp_per_level_increase]

lemma threshold_matches_gain (p : PlayerProg) (a : ℤ) :
    threshold_matches p → threshold_matches (gain_xp p a).1 := by
  intro h
  unfold gain_xp
  by_cases hx : p.xp + a ≥ ((p.xp_to_next_level : ℤ))
  · simp only [hx, ge_iff_le, if_pos]
    simp [level_up, heal, threshold_matches]
  · simp only [ge_iff_le] at hx ⊢
    rw [if_neg hx]
    simpa [threshold_matches] using h

lemma gain_xp_fires (q : PlayerProg) (h : q.xp ≥ (q.xp_to_next_level : ℤ)) :
    (gain_xp q 0).2 = true := by
  have h0 : (q.xp_to_next_level : ℤ) ≤ q.xp := h
  simp [gain_xp, h0]

lemma threshold_matches_run (l : List ℤ) (p : PlayerProg) :
    threshold_matches p → threshold_matches (run_gains p l) := by
  induction l generalizing p with
  | nil => intro h; simpa [run_gains] using h
  | cons a l ih =>
      intro h
      simpa [run_gains] using ih _ (threshold_matches_gain p a h)

/-- Claim C5: the XP threshold to reach level 2 equals `100 // 2 = 50`, and
in every state reachable by a sequence of `gain_xp` calls, the threshold in
effect equals `(100 + (level - 1) * 50) // 2`. -/
theorem xp_threshold_formula (l : List ℤ) :
    init_player.xp_to_next_level = 50 ∧
    (run_gains init_player l).xp_to_next_level =
      (100 + ((run_gains init_player l).level - 1) * 50) / 2 := by
  refine ⟨by simp [init_player, base_xp_to_level], ?_⟩
  have h := threshold_matches_run l init_player threshold_matches_init
  simpa [threshold_matches, base_xp_to_level, xp_per_level_increase] using h

/-- Claim C10: a single `gain_xp` call raises the level by at most one; when
the threshold is met the excess XP is retained unchanged (even if it still
meets the newly computed threshold), and it counts toward the next
threshold on a later `gain_xp` call. -/
theorem gain_xp_single_level (p : PlayerProg) (a : ℤ) :
    (gain_xp p a).1.level ≤ p.level + 1 ∧
    (p.xp + a ≥ (p.xp_to_next_level : ℤ) →
      (gain_xp p a).1.level = p.level + 1 ∧
      (gain_xp p a).1.xp = p.xp + a - p.xp_to_next_level) ∧
    (p.xp + a < (p.xp_to_next_level : ℤ) →
      (gain_xp p a).1.level = p.level ∧ (gain_xp p a).1.xp = p.xp + a) ∧
    ((gain_xp p a).1.xp ≥ ((gain_xp p a).1.xp_to_next_level : ℤ) →
      (gain_xp (gain_xp p a).1 0).2 = true) := by
  refine ⟨?_, ?_, ?_, ?_⟩
  · unfold gain_xp
    by_cases hx : p.xp + a ≥ ((p.xp_to_next_level : ℤ))
    · simp [hx, level_up, heal]
    · simp [hx]
  · intro hx
    simp [gain_xp, hx, level_up, heal]
  · intro hx
    simp [gain_xp, not_le.mpr hx, le_of_lt hx]
  · intro hx
    exact gain_xp_fires _ hx

/-- Witness for C10 at a concrete input: gaining 200 XP from the initial
state levels exactly once to level 2 with 150 excess XP retained, and a
later `gain_xp 0` call fires the next level-up from the retained excess. -/
theorem gain_xp_single_level_witness :
    (gain_xp init_player 200).1.level = init_player.level + 1 ∧
    (gain_xp init_player 200).1.xp =
      init_player.xp + 200 - init_player.xp_to_next_level ∧
    (gain_xp (gain_xp init_player 200).1 0).2 = true := by
  have h := gain_xp_single_level init_player 200
  refine ⟨(h.2.1 (by decide)).1, (h.2.1 (by decide)).2, h.2.2.2 ?_⟩
  decide

/-- Claim C2, counterexample: a chaser spawned at `t = 90s` has
`difficulty_mult = 1.075`, so `10 * 1.075 = 10.75`; the code's `int(...)`
truncation yields max HP 10, while the claimed `round(...)` yields 11. -/
theorem enemy_hp_not_rounded :
    (mk_enemy chaser_data (difficulty_multiplier 90)).max_hp ≠
      round (chaser_data.hp * difficulty_multiplier 90) := by
  have h1 : (mk_enemy chaser_data (difficulty_multiplier 90)).max_hp = 10 := by
    have : chaser_data.hp * difficulty_multiplier 90 = 43 / 4 := by
      norm_num [chaser_data, difficulty_multiplier, difficulty_hp_scale]
    simp only [mk_enemy, pyInt, this]
    norm_num
  have h2 : round (chaser_data.hp * difficulty_multiplier 90) = 11 := by
    have : chaser_data.hp * difficulty_multiplier 90 = 43 / 4 := by
      norm_num [chaser_data, difficulty_multiplier, difficulty_hp_scale]
    rw [this, round_eq]
    norm_num
  rw [h1, h2]
  decide

/-- Claim C2 as amended: enemy max HP is the *truncation* (Python `int`) of
`baseHP * diff(t)` and damage is the truncation of
`baseDamage * (1 + (diff(t) - 1) * 0.5)`, where `diff(t) = 1 + 0.05 * (t/60)`;
damage still scales at half the rate of HP (`1 + t/2400` versus `1 + t/1200`). -/
theorem enemy_stats_truncated (cfg : EnemyConfig) (t : ℚ) :
    (mk_enemy cfg (difficulty_multiplier t)).max_hp = pyInt (cfg.hp * (1 + t / 1200)) ∧
    (mk_enemy cfg (difficulty_multiplier t)).damage = pyInt (cfg.damage * (1 + t / 2400)) := by
  constructor
  · show pyInt (cfg.hp * difficulty_multiplier t) = _
    congr 1
    unfold difficulty_multiplier difficulty_hp_scale
    ring
  · show pyInt (cfg.damage * (1 + (difficulty_multiplier t - 1) * (1 / 2))) = _
    congr 1
    unfold difficulty_multiplier difficulty_hp_scale
    ring

/-- Claim C4: for every weapon configuration and level `1 ≤ L ≤ maxLevel`,
the stats produced by `_recalculate_stats` equal the closed-form formulas,
with the player modifiers applied last. -/
theorem weapon_stats_closed_form (cfg : WeaponConfig) (mods : PlayerMods)
    (w : WeaponState) (h1 : 1 ≤ w.level) (h2 : w.level ≤ cfg.max_level) :
    (recalculate_stats cfg mods w).damage = spec_damage cfg mods w.level ∧
    (recalculate_stats cfg mods w).cooldown = spec_cooldown cfg mods w.level ∧
    (recalculate_stats cfg mods w).area = spec_area cfg w.level ∧
    (recalculate_stats cfg mods w).amount = spec_amount cfg w.level := by
  refine ⟨rfl, rfl, rfl, rfl⟩

/-- Witness for C4 at a concrete input: the wand at level 4 with
`might = 1.2` and `cooldownReduction = 0.08` satisfies the closed forms
(`damage = 22.8`, `cooldown = 0.6992`, `area = 1`, `amount = 2`). -/
theorem weapon_stats_closed_form_witness :
    (1 ≤ 4 ∧ 4 ≤ wand_data.max_level) ∧
    (recalculate_stats wand_data
        { might := 6 / 5, cooldown_reduction := 2 / 25 }
        { level := 4, damage := 0, cooldown := 0, area := 0, amount := 0
          size_multiplier := 0, evolved := false }).damage =
      spec_damage wand_data { might := 6 / 5, cooldown_reduction := 2 / 25 } 4 := by
  exact ⟨⟨by decide, by decide⟩,
    (weapon_stats_closed_form wand_data
      { might := 6 / 5, cooldown_reduction := 2 / 25 }
      { level := 4, damage := 0, cooldown := 0, area := 0, amount := 0
        size_multiplier := 0, evolved := false } (by decide) (by decide)).1⟩

/-- Claim C9: evolving multiplies damage by the evolution multiplier, but any
later `_recalculate_stats` (forced on every weapon whenever a passive is
added or leveled) resets damage to the un-evolved closed form
`(baseDamage + damagePerLevel*(L-1)) * might`; the multiplier is not
reapplied (the evolved flag survives but no longer affects damage), and
repeating the recomputation never restores it. -/
theorem evolution_damage_lost (cfg : WeaponConfig) (mods : PlayerMods)
    (w : WeaponState) (e : EvolutionConfig) :
    (evolve (some e) w).1.damage = w.damage * e.damage_mult ∧
    (evolve (some e) w).1.evolved = true ∧
    (recalculate_stats cfg mods (evolve (some e) w).1).damage =
      spec_damage cfg mods w.level ∧
    (recalculate_stats cfg mods (evolve (some e) w).1).evolved = true ∧
    (recalculate_stats cfg mods
        (recalculate_stats cfg mods (evolve (some e) w).1)).damage =
      spec_damage cfg mods w.level := by
  exact ⟨rfl, rfl, rfl, rfl, rfl⟩

/-- Claim C1, code evaluation at the failing input: for a chaser death at
(100, 100) the tick spawns exactly one (small) XP gem and never any health
pickup or chest — `Game.update` never calls `spawn_enemy_drops`, the only
routine that rolls them — while `spawn_enemy_drops` itself, on a random
stream whose chance rolls are 0, would spawn both. -/
theorem game_tick_drops_gem_only :
    game_update_process_deaths [⟨(100, 100), 1⟩] =
      [SpawnedDrop.xp_gem (100, 100) 1 .small] ∧
    count_health (game_update_process_deaths [⟨(100, 100), 1⟩]) = 0 ∧
    count_chests (game_update_process_deaths [⟨(100, 100), 1⟩]) = 0 ∧
    count_health (spawn_enemy_drops (fun _ => 0) ⟨(100, 100), 1⟩) = 1 ∧
    count_chests (spawn_enemy_drops (fun _ => 0) ⟨(100, 100), 1⟩) = 1 := by
  refine ⟨?_, ?_, ?_, ?_, ?_⟩ <;>
    simp [game_update_process_deaths, spawn_enemy_drops, spawn_xp_gem, gem_tier,
      count_health, count_chests, health_drop_chance, chest_drop_chance]

/-- Claim C3, counterexample: with an empty candidate pool
`get_upgrade_options` returns the empty list — the padding loop is guarded
by `and possible`, so nothing is ever resampled from an empty pool. -/
theorem upgrade_options_empty_pool :
    possible_upgrades maxed_inventory = [] ∧
    get_upgrade_options (possible_upgrades maxed_inventory) 3 (fun _ => 0) = [] := by
  constructor
  · decide
  · decide

/-- Claim C3 as amended: for every inventory state and every shuffle of the
candidate pool, when the pool is non-empty the request returns exactly
`count` options, each drawn from the pool (padding by resampling with
repetition when fewer than `count` distinct candidates exist); when the
pool is empty the result is the empty list. -/
theorem upgrade_options_padded (inv : Inventory) (count : ℕ)
    (perm : List UpgradeOption) (picks : ℕ → ℕ)
    (hperm : perm.Perm (possible_upgrades inv)) :
    (possible_upgrades inv ≠ [] →
      (get_upgrade_options perm count picks).length = count ∧
      ∀ o ∈ get_upgrade_options perm count picks, o ∈ possible_upgrades inv) ∧
    (possible_upgrades inv = [] →
      get_upgrade_options perm count picks = []) := by
  constructor
  · intro hne
    have hpne : perm ≠ [] := by
      intro h
      subst h
      exact hne hperm.symm.eq_nil
    have hie : perm.isEmpty = false := by
      cases perm with
      | nil => exact absurd rfl hpne
      | cons a l => rfl
    have hlen : 0 < perm.length := List.length_pos.mpr hpne
    constructor
    · simp only [get_upgrade_options, hie, Bool.false_eq_true, if_false,
        List.length_append, List.length_map, List.length_range, List.length_take]
      omega
    · intro o ho
      simp only [get_upgrade_options, hie, Bool.false_eq_true, if_false,
        List.mem_append, List.mem_map, List.mem_range] at ho
      have hmem : o ∈ perm := by
        rcases ho with ho | ⟨i, _, rfl⟩
        · exact List.mem_of_mem_take ho
        · rw [List.getD_eq_get _ _ (Nat.mod_lt _ hlen)]
          exact List.get_mem _ _ _
      exact hperm.mem_iff.mp hmem
  · intro he
    rw [he] at hperm
    simp [get_upgrade_options, hperm.eq_nil]

/-- Witness for C3 (amended) at a concrete input: a fresh inventory holding
only a level-1 whip has a 12-candidate pool, and requesting 3 options from
the identity shuffle returns exactly 3 options from that pool. -/
theorem upgrade_options_padded_witness :
    possible_upgrades
        { weapons := [(.whip, { level := 1, evolved := false })], passives := [] } ≠ [] ∧
    (get_upgrade_options
        (possible_upgrades
          { weapons := [(.whip, { level := 1, evolved := false })], passives := [] })
        3 (fun _ => 0)).length = 3 := by
  have h := upgrade_options_padded
    { weapons := [(.whip, { level := 1, evolved := false })], passives := [] } 3
    (possible_upgrades
      { weapons := [(.whip, { level := 1, evolved := false })], passives := [] })
    (fun _ => 0) (List.Perm.refl _)
  exact ⟨by decide, (h.1 (by decide)).1⟩

/-- Claim C7, counterexample: on a lethal contact (player at 5 HP, no
armor, enemy damage 30) the damage applies and the invincibility window
opens, but the handler returns before `reset_damage_cooldown`, so the
enemy's cooldown stays 0 instead of resetting to 0.5 s as claimed for
every successful hit. -/
theorem lethal_contact_skips_cooldown_reset :
    (handle_contact { scenario_player with hp := 5 }
        { scenario_enemy with damage := 30 } true).1.dead = true ∧
    (handle_contact { scenario_player with hp := 5 }
        { scenario_enemy with damage := 30 } true).1.damage_taken = 30 ∧
    (handle_contact { scenario_player with hp := 5 }
        { scenario_enemy with damage := 30 } true).2.damage_cooldown = 0 ∧
    (0 : ℚ) ≠ 1 / 2 := by
  refine ⟨?_, ?_, ?_, by norm_num⟩ <;>
    simp [handle_contact, get_hit, scenario_player, scenario_enemy,
      enemy_can_damage, reset_damage_cooldown] <;> norm_num

/-- Claim C7 as amended: contact damage applies only when the enemy's 0.5 s
cooldown has elapsed and the player is not invincible; the applied damage is
the enemy's damage reduced by armor with a floor of 1; on a hit the
invincibility window opens, and the enemy cooldown resets on every
*non-lethal* hit (on a lethal hit the handler returns first).  Two
overlapping contacts 0.1 s apart with a 0.5 s invincibility window produce
exactly one damage application. -/
theorem contact_damage_gating (p : PlayerCombat) (e : EnemyCombat)
    (hdead : p.dead = false) (hcheat : p.unlimited_health = false) :
    (0 < e.damage_cooldown → handle_contact p e true = (p, e)) ∧
    (p.is_invincible = true → handle_contact p e true = (p, e)) ∧
    (e.damage_cooldown ≤ 0 → p.is_invincible = false →
      ((handle_contact p e true).1.hp =
          (if p.hp - max 1 (e.damage - p.armor) ≤ 0 then 0
           else p.hp - max 1 (e.damage - p.armor)) ∧
       (handle_contact p e true).1.damage_taken =
          p.damage_taken + max 1 (e.damage - p.armor) ∧
       (handle_contact p e true).1.is_invincible = true ∧
       (handle_contact p e true).1.i_frames_timer = p.i_frames_duration ∧
       (¬(p.hp - max 1 (e.damage - p.armor) ≤ 0) →
          (handle_contact p e true).2.damage_cooldown = 1 / 2) ∧
       (p.hp - max 1 (e.damage - p.armor) ≤ 0 →
          (handle_contact p e true).1.dead = true ∧
          (handle_contact p e true).2.damage_cooldown = e.damage_cooldown))) ∧
    ((handle_contact
        (update_i_frames (handle_contact scenario_player scenario_enemy true).1 (1 / 10))
        (enemy_update_cooldown (handle_contact scenario_player scenario_enemy true).2 (1 / 10))
        true).1.damage_taken = 10 ∧
     (handle_contact
        (update_i_frames (handle_contact scenario_player scenario_enemy true).1 (1 / 10))
        (enemy_update_cooldown (handle_contact scenario_player scenario_enemy true).2 (1 / 10))
        true).1.hp = 90) := by
  refine ⟨?_, ?_, ?_, ?_, ?_⟩
  · intro h
    simp [handle_contact, enemy_can_damage, not_le.mpr h]
  · intro h
    simp [handle_contact, h]
  · intro hcool hinv
    simp only [handle_contact, enemy_can_damage, decide_eq_true hcool, hinv,
      Bool.not_false, Bool.and_true, Bool.true_and, if_true]
    simp only [get_hit, hinv, hdead, Bool.or_self, Bool.false_eq_true, if_false, hcheat]
    by_cases hl : p.hp - max 1 (e.damage - p.armor) ≤ 0
    · simp [hl, reset_damage_cooldown]
    · simp [hl, reset_damage_cooldown]
  · simp [handle_contact, get_hit, update_i_frames, enemy_update_cooldown,
      scenario_player, scenario_enemy, enemy_can_damage, reset_damage_cooldown]
    norm_num
  · simp [handle_contact, get_hit, update_i_frames, enemy_update_cooldown,
      scenario_player, scenario_enemy, enemy_can_damage, reset_damage_cooldown]
    norm_num

/-- Witness for C7 (amended) at a concrete input: a 10-damage enemy with an
open cooldown hitting the non-invincible scenario player applies 10 damage,
opens the 0.5 s window and resets the enemy cooldown to 0.5 s. -/
theorem contact_damage_gating_witness :
    (handle_contact scenario_player scenario_enemy true).1.damage_taken =
      scenario_player.damage_taken + max 1 (scenario_enemy.damage - scenario_player.armor) ∧
    (handle_contact scenario_player scenario_enemy true).1.is_invincible = true ∧
    (handle_contact scenario_player scenario_enemy true).2.damage_cooldown = 1 / 2 := by
  have h := contact_damage_gating scenario_player scenario_enemy rfl rfl
  have h3 := h.2.2.1 (by norm_num [scenario_enemy]) rfl
  exact ⟨h3.2.1, h3.2.2.1, h3.2.2.2.2.1 (by norm_num [scenario_player, scenario_enemy])⟩

lemma collision_pass_spec (es : List (ℕ × Bool)) : ∀ p : Projectile,
    (∀ e ∈ (collision_pass p es).2, e ∉ p.hit_enemies) ∧
    (collision_pass p es).2.Nodup ∧
    (collision_pass p es).1.hit_enemies =
      (collision_pass p es).2.reverse ++ p.hit_enemies ∧
    (collision_pass p es).1.hits_remaining =
      p.hits_remaining - (collision_pass p es).2.length ∧
    (collision_pass p es).1.age = p.age ∧
    (collision_pass p es).1.lifetime = p.lifetime ∧
    ((collision_pass p es).1.killed = true ↔
      (p.killed = true ∨
        ((collision_pass p es).1.hits_remaining ≤ 0 ∧ (collision_pass p es).2 ≠ []))) := by
  induction es with
  | nil =>
      intro p
      simp [collision_pass]
  | cons e es ih =>
      intro p
      by_cases hov : e.2
      · simp only [collision_pass, hov, if_true]
        by_cases hmem : e.1 ∈ p.hit_enemies
        · have hr : hit_enemy p e.1 = (p, false) := by simp [hit_enemy, hmem]
          simpa [hr] using ih p
        · by_cases hz : p.hits_remaining - 1 ≤ 0
          · -- this hit exhausts the pierce budget and kills the projectile
            have hr : hit_enemy p e.1 =
                ((⟨p.hits_remaining - 1, e.1 :: p.hit_enemies, true, p.age,
                   p.lifetime⟩ : Projectile), true) := by
              simp [hit_enemy, hmem, hz]
            obtain ⟨ih1, ih2, ih3, ih4, ih5, ih6, ih7⟩ :=
              ih ⟨p.hits_remaining - 1, e.1 :: p.hit_enemies, true, p.age, p.lifetime⟩
            have hk : (collision_pass (⟨p.hits_remaining - 1, e.1 :: p.hit_enemies,
                true, p.age, p.lifetime⟩ : Projectile) es).1.hits_remaining =
                p.hits_remaining - 1 - ((collision_pass (⟨p.hits_remaining - 1,
                  e.1 :: p.hit_enemies, true, p.age, p.lifetime⟩ : Projectile) es).2.length : ℤ) := by
              rw [ih4]
            simp only [hr, reduceIte, List.singleton_append]
            refine ⟨?_, ?_, ?_, ?_, ih5, ih6, ?_⟩
            · intro x hx
              rcases List.mem_cons.mp hx with rfl | hx
              · exact hmem
              · intro hc
                exact (ih1 x hx) (List.mem_cons_of_mem _ hc)
            · exact List.nodup_cons.mpr
                ⟨fun hc => (ih1 _ hc) (List.mem_cons_self _ _), ih2⟩
            · rw [ih3]
              simp
            · rw [hk]
              simp only [List.length_cons]
              push_cast
              ring
            · constructor
              · intro _
                refine Or.inr ⟨?_, by simp⟩
                rw [hk]
                omega
              · intro _
                exact ih7.mpr (Or.inl rfl)
          · -- pierce budget survives this hit
            have hr : hit_enemy p e.1 =
                ((⟨p.hits_remaining - 1, e.1 :: p.hit_enemies, p.killed, p.age,
                   p.lifetime⟩ : Projectile), true) := by
              simp [hit_enemy, hmem, hz]
            obtain ⟨ih1, ih2, ih3, ih4, ih5, ih6, ih7⟩ :=
              ih ⟨p.hits_remaining - 1, e.1 :: p.hit_enemies, p.killed, p.age, p.lifetime⟩
            have hk : (collision_pass (⟨p.hits_remaining - 1, e.1 :: p.hit_enemies,
                p.killed, p.age, p.lifetime⟩ : Projectile) es).1.hits_remaining =
                p.hits_remaining - 1 - ((collision_pass (⟨p.hits_remaining - 1,
                  e.1 :: p.hit_enemies, p.killed, p.age, p.lifetime⟩ : Projectile) es).2.length : ℤ) := by
              rw [ih4]
            simp only [hr, reduceIte, List.singleton_append]
            refine ⟨?_, ?_, ?_, ?_, ih5, ih6, ?_⟩
            · intro x hx
              rcases List.mem_cons.mp hx with rfl | hx
              · exact hmem
              · intro hc
                exact (ih1 x hx) (List.mem_cons_of_mem _ hc)
            · exact List.nodup_cons.mpr
                ⟨fun hc => (ih1 _ hc) (List.mem_cons_self _ _), ih2⟩
            · rw [ih3]
              simp
            · rw [hk]
              simp only [List.length_cons]
              push_cast
              ring
            · constructor
              · intro h
                rcases ih7.mp h with h1 | ⟨h1, _⟩
                · exact Or.inl h1
                · exact Or.inr ⟨h1, by simp⟩
              · rintro (h1 | ⟨h1, _⟩)
                · exact ih7.mpr (Or.inl h1)
                · by_cases hre : (collision_pass (⟨p.hits_remaining - 1,
                      e.1 :: p.hit_enemies, p.killed, p.age, p.lifetime⟩ : Projectile) es).2 = []
                  · exfalso
                    rw [hk, hre] at h1
                    simp at h1
                    omega
                  · exact ih7.mpr (Or.inr ⟨h1, hre⟩)
      · have hov2 : e.2 = false := Bool.eq_false_iff.mpr hov
        simp only [collision_pass, hov2, Bool.false_eq_true, if_false]
        exact ih p

lemma update_proj_fields (p : Projectile) (dt : ℚ) :
    (update_proj p dt).hit_enemies = p.hit_enemies ∧
    (update_proj p dt).hits_remaining = p.hits_remaining ∧
    (update_proj p dt).lifetime = p.lifetime ∧
    (update_proj p dt).age = p.age + dt ∧
    (update_proj p dt).killed = (p.killed || decide (p.lifetime ≤ p.age + dt)) := by
  unfold update_proj
  by_cases h : p.lifetime ≤ p.age + dt <;> simp [h]

lemma run_frames_cons_killed (p : Projectile) (f : Frame) (fs : List Frame)
    (h : p.killed = true) : run_frames p (f :: fs) = run_frames p fs := by
  simp [run_frames, h]

lemma run_frames_cons_expired (p : Projectile) (f : Frame) (fs : List Frame)
    (h : p.killed = false) (h1 : (update_proj p f.dt).killed = true) :
    run_frames p (f :: fs) = run_frames (update_proj p f.dt) fs := by
  simp [run_frames, h, h1]

lemma run_frames_cons_alive (p : Projectile) (f : Frame) (fs : List Frame)
    (h : p.killed = false) (h1 : (update_proj p f.dt).killed = false) :
    run_frames p (f :: fs) =
      ((run_frames (collision_pass (update_proj p f.dt) f.enemies).1 fs).1,
       (collision_pass (update_proj p f.dt) f.enemies).2 ++
         (run_frames (collision_pass (update_proj p f.dt) f.enemies).1 fs).2) := by
  simp [run_frames, h, h1]

lemma run_frames_spec (frames : List Frame) : ∀ p : Projectile,
    proj_wf p → p.hit_enemies.Nodup →
    (∀ e ∈ (run_frames p frames).2, e ∉ p.hit_enemies) ∧
    (run_frames p frames).2.Nodup ∧
    (run_frames p frames).1.hit_enemies =
      (run_frames p frames).2.reverse ++ p.hit_enemies ∧
    (run_frames p frames).1.hits_remaining =
      p.hits_remaining - (run_frames p frames).2.length ∧
    (run_frames p frames).1.lifetime = p.lifetime ∧
    proj_wf (run_frames p frames).1 := by
  induction frames with
  | nil =>
      intro p hwf _
      simpa [run_frames] using hwf
  | cons f fs ih =>
      intro p hwf hnd
      by_cases hk : p.killed = true
      · rw [run_frames_cons_killed p f fs hk]
        exact ih p hwf hnd
      · replace hk : p.killed = false := Bool.eq_false_iff.mpr hk
        have hw : (decide (p.hits_remaining ≤ 0) || decide (p.lifetime ≤ p.age)) = false := by
          rw [proj_wf] at hwf
          rw [hk] at hwf
          exact hwf.symm
        have hpos : 0 < p.hits_remaining := by
          rcases Bool.or_eq_false_iff.mp hw with ⟨h1, _⟩
          have := of_decide_eq_false h1
          omega
        have hage : ¬ (p.lifetime ≤ p.age) := by
          rcases Bool.or_eq_false_iff.mp hw with ⟨_, h2⟩
          exact of_decide_eq_false h2
        obtain ⟨hu1, hu2, hu3, hu4, hu5⟩ := update_proj_fields p f.dt
        by_cases hk1 : (update_proj p f.dt).killed = true
        · -- the lifetime elapsed on this frame; the projectile leaves the group
          have hwf1 : proj_wf (update_proj p f.dt) := by
            rw [proj_wf, hu2, hu3, hu4, hu5, hk]
            have : decide (p.hits_remaining ≤ 0) = false :=
              decide_eq_false (by omega)
            simp [this]
          obtain ⟨j1, j2, j3, j4, j5, j6⟩ := ih (update_proj p f.dt) hwf1 (hu1 ▸ hnd)
          rw [run_frames_cons_expired p f fs hk hk1]
          exact ⟨fun e he => hu1 ▸ j1 e he, j2, by rw [j3, hu1], by rw [j4, hu2],
            by rw [j5, hu3], j6⟩
        · replace hk1 : (update_proj p f.dt).killed = false := Bool.eq_false_iff.mpr hk1
          have hk2 : decide (p.lifetime ≤ p.age + f.dt) = false := by
            rw [hu5, hk] at hk1
            simpa using hk1
          have hwf1 : proj_wf (update_proj p f.dt) := by
            rw [proj_wf, hu2, hu3, hu4, hu5, hk]
            have hd : decide (p.hits_remaining ≤ 0) = false :=
              decide_eq_false (by omega)
            rw [hd, hk2]
          have hage1 : ¬ ((update_proj p f.dt).lifetime ≤ (update_proj p f.dt).age) := by
            rw [hu3, hu4]
            exact of_decide_eq_false hk2
          obtain ⟨c1, c2, c3, c4, c5, c6, c7⟩ :=
            collision_pass_spec f.enemies (update_proj p f.dt)
          have hwfc : proj_wf (collision_pass (update_proj p f.dt) f.enemies).1 := by
            rw [proj_wf]
            have hlife : decide ((collision_pass (update_proj p f.dt) f.enemies).1.lifetime ≤
                (collision_pass (update_proj p f.dt) f.enemies).1.age) = false := by
              rw [c5, c6]
              exact decide_eq_false hage1
            rw [hlife, Bool.or_false]
            by_cases hle : (collision_pass (update_proj p f.dt) f.enemies).1.hits_remaining ≤ 0
            · rw [decide_eq_true hle]
              by_cases hre : (collision_pass (update_proj p f.dt) f.enemies).2 = []
              · exfalso
                rw [c4, hre] at hle
                simp only [List.length_nil, Nat.cast_zero, sub_zero] at hle
                rw [hu2] at hle
                omega
              · exact c7.mpr (Or.inr ⟨hle, hre⟩)
            · rw [decide_eq_false hle]
              rw [Bool.eq_false_iff]
              intro hcontra
              rcases c7.mp hcontra with h1 | ⟨h1, _⟩
              · rw [hk1] at h1
                exact Bool.false_ne_true h1
              · exact hle h1
          have hndc : (collision_pass (update_proj p f.dt) f.enemies).1.hit_enemies.Nodup := by
            rw [c3, hu1]
            rw [List.nodup_append]
            refine ⟨List.nodup_reverse.mpr c2, hnd, ?_⟩
            intro a ha hb
            exact (c1 a (List.mem_reverse.mp ha)) (hu1 ▸ hb)
          obtain ⟨j1, j2, j3, j4, j5, j6⟩ :=
            ih (collision_pass (update_proj p f.dt) f.enemies).1 hwfc hndc
          rw [run_frames_cons_alive p f fs hk hk1]
          refine ⟨?_, ?_, ?_, ?_, ?_, j6⟩
          · intro x hx
            rcases List.mem_append.mp hx with hx | hx
            · exact hu1 ▸ c1 x hx
            · have := j1 x hx
              rw [c3, hu1] at this
              intro hc
              exact this (List.mem_append_right _ hc)
          · rw [List.nodup_append]
            refine ⟨c2, j2, ?_⟩
            intro a ha hb
            have := j1 a hb
            rw [c3] at this
            exact this (List.mem_append_left _ (List.mem_reverse.mpr ha))
          · rw [j3, c3, hu1, List.reverse_append]
            simp [List.append_assoc]
          · rw [j4, c4, hu2]
            simp only [List.length_append]
            push_cast
            ring
          · rw [j5, c6, hu3]

lemma run_frames_append (l1 l2 : List Frame) : ∀ p : Projectile,
    run_frames p (l1 ++ l2) =
      ((run_frames (run_frames p l1).1 l2).1,
       (run_frames p l1).2 ++ (run_frames (run_frames p l1).1 l2).2) := by
  induction l1 with
  | nil =>
      intro p
      simp [run_frames]
  | cons f l1 ih =>
      intro p
      by_cases hk : p.killed = true
      · rw [List.cons_append, run_frames_cons_killed p f _ hk,
          run_frames_cons_killed p f l1 hk, ih p]
      · replace hk : p.killed = false := Bool.eq_false_iff.mpr hk
        by_cases hk1 : (update_proj p f.dt).killed = true
        · rw [List.cons_append, run_frames_cons_expired p f _ hk hk1,
            run_frames_cons_expired p f l1 hk hk1, ih _]
        · replace hk1 : (update_proj p f.dt).killed = false := Bool.eq_false_iff.mpr hk1
          rw [List.cons_append, run_frames_cons_alive p f _ hk hk1,
            run_frames_cons_alive p f l1 hk hk1, ih _]
          simp [List.append_assoc]

/-- Claim C6, counterexample: a projectile created with pierce 1
(knife default) overlapping two enemies in the same collision pass damages
both of them — the pass keeps iterating after the kill, so "at most P
distinct enemies" fails in the frame where the pierce exhausts. -/
theorem pierce_exhaustion_overshoot :
    (collision_pass (mk_projectile 1 5) [(1, true), (2, true)]).2 = [1, 2] ∧
    (mk_projectile 1 5).hits_remaining = 1 := by
  constructor
  · rfl
  · rfl

/-- Claim C6 as amended: over any sequence of ticks, a projectile created
with pierce `P ≥ 1` and positive lifetime never damages the same enemy
identity twice, its remaining-pierce counter equals `P` minus the number of
enemies damaged so far (hence is monotonically non-increasing), and it is
removed exactly when its total unique hits reach `P` or its lifetime
elapses — but inside the collision pass where the pierce exhausts, enemies
iterated after the `P`-th hit are still damaged, so the number of distinct
enemies damaged in that final pass may exceed `P`. -/
theorem projectile_pierce_semantics (P : ℕ) (L : ℚ) (frames : List Frame)
    (hP : 1 ≤ P) (hL : 0 < L) :
    ((run_frames (mk_projectile P L) frames).2).Nodup ∧
    (run_frames (mk_projectile P L) frames).1.hits_remaining =
      (P : ℤ) - ((run_frames (mk_projectile P L) frames).2).length ∧
    ((run_frames (mk_projectile P L) frames).1.killed = true ↔
      (P ≤ ((run_frames (mk_projectile P L) frames).2).length ∨
        (run_frames (mk_projectile P L) frames).1.lifetime ≤
          (run_frames (mk_projectile P L) frames).1.age)) ∧
    (∀ n : ℕ, (run_frames (mk_projectile P L) frames).1.hits_remaining ≤
        (run_frames (mk_projectile P L) (frames.take n)).1.hits_remaining) := by
  have hwf0 : proj_wf (mk_projectile P L) := by
    have h1 : decide ((P : ℤ) ≤ 0) = false := decide_eq_false (by omega)
    have h2 : decide (L ≤ (0 : ℚ)) = false := decide_eq_false (not_le.mpr hL)
    simp [proj_wf, mk_projectile, h1, h2]
    omega
  have hnd0 : (mk_projectile P L).hit_enemies.Nodup := by
    simp [mk_projectile]
  obtain ⟨s1, s2, s3, s4, s5, s6⟩ :=
    run_frames_spec frames (mk_projectile P L) hwf0 hnd0
  refine ⟨s2, s4, ?_, ?_⟩
  · rw [proj_wf] at s6
    rw [s6]
    simp only [Bool.or_eq_true, decide_eq_true_eq]
    rw [s4]
    have hb : (mk_projectile P L).hits_remaining = (P : ℤ) := rfl
    constructor
    · rintro (h | h)
      · left
        omega
      · right
        exact h
    · rintro (h | h)
      · left
        omega
      · right
        exact h
  · intro n
    obtain ⟨t1, t2, t3, t4, t5, t6⟩ :=
      run_frames_spec (frames.take n) (mk_projectile P L) hwf0 hnd0
    have hndm : (run_frames (mk_projectile P L) (frames.take n)).1.hit_enemies.Nodup := by
      rw [t3]
      simp only [mk_projectile, List.append_nil]
      exact List.nodup_reverse.mpr t2
    obtain ⟨d1, d2, d3, d4, d5, d6⟩ :=
      run_frames_spec (frames.drop n)
        (run_frames (mk_projectile P L) (frames.take n)).1 t6 hndm
    have e : run_frames (mk_projectile P L) frames =
        ((run_frames (run_frames (mk_projectile P L) (frames.take n)).1 (frames.drop n)).1,
         (run_frames (mk_projectile P L) (frames.take n)).2 ++
           (run_frames (run_frames (mk_projectile P L) (frames.take n)).1 (frames.drop n)).2) := by
      conv_lhs => rw [← List.take_append_drop n frames]
      exact run_frames_append (frames.take n) (frames.drop n) (mk_projectile P L)
    rw [e]
    rw [d4]
    omega

/-- Witness for C6 (amended) at a concrete input: a pierce-2 projectile
with lifetime 5 run through one tick against a single overlapping enemy
damages exactly that enemy once, leaving one pierce. -/
theorem projectile_pierce_semantics_witness :
    ((run_frames (mk_projectile 2 5) [⟨1, [(7, true)]⟩]).2).Nodup ∧
    (run_frames (mk_projectile 2 5) [⟨1, [(7, true)]⟩]).1.hits_remaining =
      (2 : ℤ) - ((run_frames (mk_projectile 2 5) [⟨1, [(7, true)]⟩]).2).length := by
  have h := projectile_pierce_semantics 2 5 [⟨1, [(7, true)]⟩] (by decide) (by norm_num)
  exact ⟨h.1, h.2.1⟩

lemma lookup_set_self (m : List (ℕ × ℚ)) (e : ℕ) (t : ℚ) :
    lookup_timer (set_timer m e t) e = some t := by
  simp [lookup_timer, set_timer, List.find?]

lemma find?_key_filter (m : List (ℕ × ℚ)) (e k : ℕ) (hne : e ≠ k) :
    ((m.filter fun q => q.1 != k).find? fun q => q.1 == e) =
      m.find? fun q => q.1 == e := by
  induction m with
  | nil => simp
  | cons a m ih =>
      by_cases ha : a.1 = e
      · have hk : (a.1 != k) = true := by
          simp [bne_iff_ne, ha]
          exact hne
        simp only [List.filter_cons, hk, if_true]
        rw [List.find?_cons_of_pos _ (by simp [ha]), List.find?_cons_of_pos _ (by simp [ha])]
      · by_cases hk : (a.1 != k) = true
        · simp only [List.filter_cons, hk, if_true]
          rw [List.find?_cons_of_neg _ (by simp [ha]), List.find?_cons_of_neg _ (by simp [ha])]
          exact ih
        · have hk2 : (a.1 != k) = false := Bool.eq_false_iff.mpr hk
          simp only [List.filter_cons, hk2, Bool.false_eq_true, if_false]
          rw [List.find?_cons_of_neg _ (by simp [ha])]
          exact ih

lemma lookup_set_other (m : List (ℕ × ℚ)) (e k : ℕ) (t : ℚ) (hne : e ≠ k) :
    lookup_timer (set_timer m k t) e = lookup_timer m e := by
  unfold lookup_timer set_timer
  rw [List.find?_cons_of_neg _ (by simp [Ne.symm hne])]
  rw [find?_key_filter m e k hne]

lemma keys_nodup_filter (m : List (ℕ × ℚ)) (p : ℕ × ℚ → Bool)
    (h : (m.map Prod.fst).Nodup) : ((m.filter p).map Prod.fst).Nodup :=
  (List.Sublist.map Prod.fst (List.filter_sublist m)).nodup h

lemma keys_nodup_set (m : List (ℕ × ℚ)) (e : ℕ) (t : ℚ)
    (h : (m.map Prod.fst).Nodup) : ((set_timer m e t).map Prod.fst).Nodup := by
  unfold set_timer
  rw [List.map_cons]
  refine List.nodup_cons.mpr ⟨?_, keys_nodup_filter m _ h⟩
  intro hc
  rw [List.mem_map] at hc
  obtain ⟨q, hq, he⟩ := hc
  have := List.of_mem_filter hq
  rw [bne_iff_ne] at this
  exact this he

lemma lookup_none_of_not_mem (m : List (ℕ × ℚ)) (e : ℕ)
    (h : e ∉ m.map Prod.fst) : lookup_timer m e = none := by
  induction m with
  | nil => rfl
  | cons a m ih =>
      simp only [List.map_cons, List.mem_cons, not_or] at h
      unfold lookup_timer
      rw [List.find?_cons_of_neg _ (by simp [Ne.symm h.1])]
      exact ih h.2

lemma lookup_filter (m : List (ℕ × ℚ)) (hnd : (m.map Prod.fst).Nodup)
    (e : ℕ) (p : ℕ × ℚ → Bool) :
    lookup_timer (m.filter p) e =
      match lookup_timer m e with
      | some v => if p (e, v) then some v else none
      | none => none := by
  induction m with
  | nil => rfl
  | cons a m ih =>
      rw [List.map_cons, List.nodup_cons] at hnd
      by_cases ha : a.1 = e
      · have hae : a = (e, a.2) := by
          rw [Prod.ext_iff]
          exact ⟨ha, rfl⟩
        have hm : lookup_timer (a :: m) e = some a.2 := by
          unfold lookup_timer
          rw [List.find?_cons_of_pos _ (by simp [ha])]
          rfl
        rw [hm]
        by_cases hp : p (e, a.2) = true
        · have hpa : p a = true := by rw [hae]; exact hp
          simp only [List.filter_cons, hpa, if_true, hp, if_true]
          unfold lookup_timer
          rw [List.find?_cons_of_pos _ (by simp [ha])]
          rfl
        · have hp2 : p (e, a.2) = false := Bool.eq_false_iff.mpr hp
          have hpa : p a = false := by rw [hae]; exact hp2
          simp only [List.filter_cons, hpa, Bool.false_eq_true, if_false, hp2]
          have hnm : lookup_timer m e = none :=
            lookup_none_of_not_mem m e (ha ▸ hnd.1)
          have := ih hnd.2
          rw [hnm] at this
          exact this
      · have hm : lookup_timer (a :: m) e = lookup_timer m e := by
          unfold lookup_timer
          rw [List.find?_cons_of_neg _ (by simp [ha])]
        rw [hm]
        by_cases hpa : p a = true
        · simp only [List.filter_cons, hpa, if_true]
          have hm2 : lookup_timer (a :: m.filter p) e = lookup_timer (m.filter p) e := by
            unfold lookup_timer
            rw [List.find?_cons_of_neg _ (by simp [ha])]
          rw [hm2]
          exact ih hnd.2
        · have hpa2 : p a = false := Bool.eq_false_iff.mpr hpa
          simp only [List.filter_cons, hpa2, Bool.false_eq_true, if_false]
          exact ih hnd.2

lemma lookup_filter_some (m : List (ℕ × ℚ)) (hnd : (m.map Prod.fst).Nodup)
    (e : ℕ) (p : ℕ × ℚ → Bool) (v : ℚ) (h : lookup_timer m e = some v) :
    lookup_timer (m.filter p) e = if p (e, v) then some v else none := by
  have hgen := lookup_filter m hnd e p
  rw [h] at hgen
  exact hgen

lemma lookup_filter_none (m : List (ℕ × ℚ)) (hnd : (m.map Prod.fst).Nodup)
    (e : ℕ) (p : ℕ × ℚ → Bool) (h : lookup_timer m e = none) :
    lookup_timer (m.filter p) e = none := by
  have hgen := lookup_filter m hnd e p
  rw [h] at hgen
  exact hgen

lemma can_damage_other (s : GarlicState) (e2 : ℕ) (t : ℚ) (e : ℕ) (hne : e ≠ e2) :
    lookup_timer ((can_damage_enemy s e2 t).2).damage_timers e =
      lookup_timer s.damage_timers e ∧
    ((can_damage_enemy s e2 t).2).tick_rate = s.tick_rate ∧
    ((s.damage_timers.map Prod.fst).Nodup →
      ((((can_damage_enemy s e2 t).2).damage_timers.map Prod.fst).Nodup)) := by
  cases hl : lookup_timer s.damage_timers e2 with
  | none =>
      have hstep : can_damage_enemy s e2 t =
          (true, { s with damage_timers := set_timer s.damage_timers e2 t }) := by
        simp [can_damage_enemy, hl]
      rw [hstep]
      exact ⟨lookup_set_other _ _ _ _ hne, rfl, keys_nodup_set _ _ _⟩
  | some v =>
      by_cases hth : t - v ≥ s.tick_rate
      · have hstep : can_damage_enemy s e2 t =
            (true, { s with damage_timers := set_timer s.damage_timers e2 t }) := by
          simp [can_damage_enemy, hl, hth]
        rw [hstep]
        exact ⟨lookup_set_other _ _ _ _ hne, rfl, keys_nodup_set _ _ _⟩
      · have hstep : can_damage_enemy s e2 t = (false, s) := by
          simp [can_damage_enemy, hl, hth]
        rw [hstep]
        exact ⟨rfl, rfl, fun h => h⟩

lemma aura_run_cons (s : GarlicState) (ev : AuraEvent) (rest : List AuraEvent) :
    aura_run s (ev :: rest) =
      ((aura_run (aura_step s ev).1 rest).1,
       (aura_step s ev).2 ++ (aura_run (aura_step s ev).1 rest).2) := rfl

lemma damages_for_append (e : ℕ) (l1 l2 : List (ℕ × ℚ)) :
    damages_for e (l1 ++ l2) = damages_for e l1 ++ damages_for e l2 := by
  simp [damages_for]

lemma aura_run_sep (c : ℚ) (hc : 0 < c) (e : ℕ) :
    ∀ (evs : List AuraEvent) (s : GarlicState) (last : Option ℚ) (T : ℚ),
      s.tick_rate = c →
      (s.damage_timers.map Prod.fst).Nodup →
      (∀ ev ∈ evs, T ≤ ev.time) →
      List.Pairwise (fun a b => a.time ≤ b.time) evs →
      (∀ v, lookup_timer s.damage_timers e = some v → last = some v ∧ v ≤ T) →
      (lookup_timer s.damage_timers e = none →
        ∀ w, last = some w → w + 2 * c ≤ T) →
      List.Chain' (fun a b => a + c ≤ b)
        (last.toList ++ damages_for e (aura_run s evs).2) := by
  intro evs
  induction evs with
  | nil =>
      intro s last T _ _ _ _ _ _
      cases last <;> simp [aura_run, damages_for]
  | cons ev rest ih =>
      intro s last T hrate hnd hT hpair hsome hnone
      have hTev : T ≤ ev.time := hT ev (List.mem_cons_self _ _)
      have hTrest : ∀ e2 ∈ rest, ev.time ≤ e2.time := (List.pairwise_cons.mp hpair).1
      have hpair2 := (List.pairwise_cons.mp hpair).2
      cases ev with
      | prune t =>
          have hstep : aura_step s (.prune t) = (prune_timers s t, []) := rfl
          rw [aura_run_cons, hstep]
          simp only [List.nil_append]
          apply ih (prune_timers s t) last t hrate (keys_nodup_filter _ _ hnd)
            hTrest hpair2
          · intro v hv
            have hv2 : lookup_timer (s.damage_timers.filter fun q =>
                decide (t - q.2 < s.tick_rate * 2)) e = some v := hv
            cases hl : lookup_timer s.damage_timers e with
            | none =>
                rw [lookup_filter_none s.damage_timers hnd e _ hl] at hv2
                exact absurd hv2 (by simp)
            | some w =>
                rw [lookup_filter_some s.damage_timers hnd e _ w hl] at hv2
                by_cases hp : (decide (t - w < s.tick_rate * 2)) = true
                · rw [if_pos hp] at hv2
                  obtain ⟨hlast, hwT⟩ := hsome w hl
                  cases hv2
                  exact ⟨hlast, le_trans hwT hTev⟩
                · rw [if_neg (by simpa using hp)] at hv2
                  exact absurd hv2 (by simp)
          · intro hv w hw
            have hv2 : lookup_timer (s.damage_timers.filter fun q =>
                decide (t - q.2 < s.tick_rate * 2)) e = none := hv
            cases hl : lookup_timer s.damage_timers e with
            | none => exact le_trans (hnone hl w hw) hTev
            | some u =>
                rw [lookup_filter_some s.damage_timers hnd e _ u hl] at hv2
                by_cases hp : (decide (t - u < s.tick_rate * 2)) = true
                · rw [if_pos hp] at hv2
                  exact absurd hv2 (by simp)
                · obtain ⟨hlast, _⟩ := hsome u hl
                  rw [hlast] at hw
                  cases hw
                  have hidle : ¬ (t - w < s.tick_rate * 2) := by simpa using hp
                  rw [hrate] at hidle
                  linarith [not_lt.mp hidle]
      | check e2 t =>
          by_cases he2 : e2 = e
          · subst he2
            cases hl : lookup_timer s.damage_timers e2 with
            | none =>
                have hstep : aura_step s (.check e2 t) =
                    ({ s with damage_timers := set_timer s.damage_timers e2 t },
                     [(e2, t)]) := by
                  simp [aura_step, can_damage_enemy, hl]
                rw [aura_run_cons, hstep]
                simp only [damages_for_append]
                have hone : damages_for e2 [(e2, t)] = [t] := by simp [damages_for]
                rw [hone]
                have hchain := ih { s with damage_timers := set_timer s.damage_timers e2 t }
                  (some t) t hrate (keys_nodup_set _ _ _ hnd) hTrest hpair2
                  (by
                    intro v hv
                    have hv2 : lookup_timer (set_timer s.damage_timers e2 t) e2 = some v := hv
                    rw [lookup_set_self] at hv2
                    cases hv2
                    exact ⟨rfl, le_refl _⟩)
                  (by
                    intro hv
                    have hv2 : lookup_timer (set_timer s.damage_timers e2 t) e2 = none := hv
                    rw [lookup_set_self] at hv2
                    exact absurd hv2 (by simp))
                cases hlast : last with
                | none => simpa using hchain
                | some w =>
                    have hw : w + 2 * c ≤ T := hnone hl w hlast
                    have hlink : w + c ≤ t := by
                      have : T ≤ t := hTev
                      linarith
                    simp only [Option.toList, List.singleton_append, List.cons_append]
                    refine List.chain'_cons.mpr ⟨hlink, ?_⟩
                    simpa using hchain
            | some v =>
                by_cases hth : t - v ≥ s.tick_rate
                · have hstep : aura_step s (.check e2 t) =
                      ({ s with damage_timers := set_timer s.damage_timers e2 t },
                       [(e2, t)]) := by
                    simp [aura_step, can_damage_enemy, hl, hth]
                  rw [aura_run_cons, hstep]
                  simp only [damages_for_append]
                  have hone : damages_for e2 [(e2, t)] = [t] := by simp [damages_for]
                  rw [hone]
                  have hchain := ih { s with damage_timers := set_timer s.damage_timers e2 t }
                    (some t) t hrate (keys_nodup_set _ _ _ hnd) hTrest hpair2
                    (by
                      intro u hu
                      have hu2 : lookup_timer (set_timer s.damage_timers e2 t) e2 = some u := hu
                      rw [lookup_set_self] at hu2
                      cases hu2
                      exact ⟨rfl, le_refl _⟩)
                    (by
                      intro hu
                      have hu2 : lookup_timer (set_timer s.damage_timers e2 t) e2 = none := hu
                      rw [lookup_set_self] at hu2
                      exact absurd hu2 (by simp))
                  obtain ⟨hlast, _⟩ := hsome v hl
                  rw [hlast]
                  have hlink : v + c ≤ t := by
                    rw [hrate] at hth
                    linarith
                  simp only [Option.toList, List.singleton_append, List.cons_append]
                  refine List.chain'_cons.mpr ⟨hlink, ?_⟩
                  simpa using hchain
                · have hstep : aura_step s (.check e2 t) = (s, []) := by
                    simp [aura_step, can_damage_enemy, hl, hth]
                  rw [aura_run_cons, hstep]
                  simp only [List.nil_append]
                  apply ih s last t hrate hnd hTrest hpair2
                  · intro u hu
                    rw [hl] at hu
                    cases hu
                    obtain ⟨hlast, hvT⟩ := hsome v hl
                    exact ⟨hlast, le_trans hvT hTev⟩
                  · intro hu
                    rw [hl] at hu
                    exact absurd hu (by simp)
          · obtain ⟨ho1, ho2, ho3⟩ :=
              can_damage_other s e2 t e (fun h => he2 h.symm)
            rw [aura_run_cons]
            have hdd : damages_for e (aura_step s (.check e2 t)).2 = [] := by
              cases hb : (can_damage_enemy s e2 t).1 <;>
                simp [aura_step, hb, damages_for, he2]
            rw [damages_for_append, hdd]
            simp only [List.nil_append]
            have hstep1 : (aura_step s (.check e2 t)).1 = (can_damage_enemy s e2 t).2 := rfl
            rw [hstep1]
            apply ih (can_damage_enemy s e2 t).2 last t (by rw [ho2, hrate])
              (ho3 hnd) hTrest hpair2
            · intro v hv
              rw [ho1] at hv
              obtain ⟨hlast, hvT⟩ := hsome v hv
              exact ⟨hlast, le_trans hvT hTev⟩
            · intro hv w hw
              rw [ho1] at hv
              exact le_trans (hnone hv w hw) hTev

/-- Claim C8: for any Garlic aura tick rate `c > 0` and any
time-ordered trace of per-enemy range checks and cleanup passes starting
from a fresh aura, any two damage ticks on the same enemy are at least `c`
apart (so the enemy is damaged at most once per interval of length `c`,
although the in-range check runs every tick); cleanup prunes exactly the
entries idle for `2c` or more, and a check of one enemy never touches
another enemy's timer. -/
theorem garlic_tick_separation (c : ℚ) (evs : List AuraEvent) (e : ℕ)
    (hc : 0 < c) (hmono : List.Pairwise (fun a b => a.time ≤ b.time) evs) :
    List.Chain' (fun a b => a + c ≤ b)
      (damages_for e (aura_run { tick_rate := c, damage_timers := [] } evs).2) ∧
    (∀ (s : GarlicState) (now : ℚ), (prune_timers s now).damage_timers =
      s.damage_timers.filter fun q => decide (now - q.2 < s.tick_rate * 2)) ∧
    (∀ (s : GarlicState) (e2 : ℕ) (now : ℚ), e2 ≠ e →
      lookup_timer ((can_damage_enemy s e2 now).2).damage_timers e =
        lookup_timer s.damage_timers e) := by
  refine ⟨?_, fun s now => rfl,
    fun s e2 now hne => (can_damage_other s e2 now e (Ne.symm hne)).1⟩
  cases evs with
  | nil => simp [aura_run, damages_for]
  | cons ev rest =>
      have h := aura_run_sep c hc e (ev :: rest)
        { tick_rate := c, damage_timers := [] } none ev.time rfl (by simp)
        (by
          intro ev2 hev2
          rcases List.mem_cons.mp hev2 with rfl | hev2
          · exact le_refl _
          · exact (List.pairwise_cons.mp hmono).1 ev2 hev2)
        hmono
        (by
          intro v hv
          exact absurd hv (by simp [lookup_timer]))
        (by
          intro _ w hw
          exact absurd hw (by simp))
      simpa using h

/-- Witness for C8 at a concrete input: with tick rate 0.5 s and checks of
enemy 1 at times 0, 0.25 and 0.6 the aura damages at 0 and 0.6 only, and
those ticks are at least 0.5 s apart. -/
theorem garlic_tick_separation_witness :
    List.Chain' (fun a b => a + (1 / 2 : ℚ) ≤ b)
      (damages_for 1
        (aura_run { tick_rate := 1 / 2, damage_timers := [] }
          [.check 1 0, .check 1 (1 / 4), .check 1 (3 / 5)]).2) := by
  exact (garlic_tick_separation (1 / 2)
    [.check 1 0, .check 1 (1 / 4), .check 1 (3 / 5)] 1 (by norm_num)
    (by
      refine List.pairwise_cons.mpr ⟨?_, List.pairwise_cons.mpr ⟨?_, ?_⟩⟩
      · intro b hb
        rcases List.mem_cons.mp hb with rfl | hb
        · norm_num [AuraEvent.time]
        · rcases List.mem_singleton.mp hb with rfl
          norm_num [AuraEvent.time]
      · intro b hb
        rcases List.mem_singleton.mp hb with rfl
        norm_num [AuraEvent.time]
      · simp)).1
